import Mathlib

/-!
Shallow embedding of the cache / filter / sort / paginate core of the
awesome-directories CLI (package `cache`, with the record model from
package `models`).

Modelling conventions:
* Go `int` is modelled as `Int`; the one arithmetic operation on the
  modelled paths whose overflow is observable, the pagination's
  `end := start + limit`, wraps two's-complement via `goIntWrap`.
* `time.Time` instants and `time.Duration` values are modelled as `Int`
  (an abstract clock; `time.Since(t)` at clock value `now` is `now - t`).
* The two on-disk artifacts (`directories.json`, `metadata.json`) are modelled
  as an optional structural JSON value each (`none` = file absent); JSON
  marshalling/unmarshalling is modelled structurally via `JValue`.
* Disk write failures are injected through `DiskEnv` flags; Go functions that
  both mutate the disk and may fail return `DiskState × Option String`
  (the new state plus an optional error message).
* A Go slice-bounds panic is modelled by returning `none` (`goSlice`).
-/

/-- `models.Directory`: one directory listing (source struct, field for field,
with JSON tags recorded by `encodeDirectory`). -/
structure Directory where
  id : String
  slug : String
  name : String
  url : String
  description : String
  categories : List String
  pricing : String
  linkType : String
  domainRating : Int
  organicTraffic : Int
  organicKeywords : Int
  helpfulCount : Int
  viewCount : Int
  submissionURL : String
  isAffiliate : Bool
  affiliateURL : String
  isActive : Bool
  createdAt : Int
  updatedAt : Int
deriving DecidableEq, Repr

/-- `models.FilterOptions`: filtering criteria. -/
structure FilterOptions where
  query : String
  categories : List String
  pricing : List String
  linkType : List String
  drMin : Int
  drMax : Int
  sortBy : String
  limit : Int
  offset : Int
deriving DecidableEq, Repr

/-- `cache.CacheMetadata`: cache freshness metadata. -/
structure CacheMetadata where
  lastUpdated : Int
  version : String
  count : Int
deriving DecidableEq, Repr

/-- Structural JSON values (the shape `go-json` marshals to / unmarshals from;
string-level printing and parsing are not modelled, timestamps are carried as
integer instants). -/
inductive JValue where
  | jstr (s : String)
  | jint (n : Int)
  | jbool (b : Bool)
  | jarr (xs : List JValue)
  | jobj (fields : List (String × JValue))

/-- JSON encoding of one `Directory` (the struct's json tags, in order). -/
def encodeDirectory (d : Directory) : JValue :=
  .jobj
    [ ("id", .jstr d.id)
    , ("slug", .jstr d.slug)
    , ("name", .jstr d.name)
    , ("url", .jstr d.url)
    , ("description", .jstr d.description)
    , ("categories", .jarr (d.categories.map .jstr))
    , ("pricing", .jstr d.pricing)
    , ("link_type", .jstr d.linkType)
    , ("domain_rating", .jint d.domainRating)
    , ("organic_traffic", .jint d.organicTraffic)
    , ("organic_keywords", .jint d.organicKeywords)
    , ("helpful_count", .jint d.helpfulCount)
    , ("view_count", .jint d.viewCount)
    , ("submission_url", .jstr d.submissionURL)
    , ("is_affiliate", .jbool d.isAffiliate)
    , ("affiliate_url", .jstr d.affiliateURL)
    , ("is_active", .jbool d.isActive)
    , ("created_at", .jint d.createdAt)
    , ("updated_at", .jint d.updatedAt) ]

/-- JSON encoding of a directory collection (`json.MarshalIndent` of the slice). -/
def encodeDirectories (l : List Directory) : JValue :=
  .jarr (l.map encodeDirectory)

/-- JSON encoding of `CacheMetadata`. -/
def encodeMetadata (m : CacheMetadata) : JValue :=
  .jobj
    [ ("last_updated", .jint m.lastUpdated)
    , ("version", .jstr m.version)
    , ("count", .jint m.count) ]

/-- Field lookup in a JSON object. -/
def getField (fs : List (String × JValue)) (k : String) : Option JValue :=
  match fs with
  | [] => none
  | (k2, v) :: rest => if k2 == k then some v else getField rest k

/-- Unmarshal a string field (Go: a missing field leaves the zero value `""`;
a type mismatch is an unmarshal error). -/
def asString : Option JValue → Except String String
  | none => .ok ""
  | some (.jstr s) => .ok s
  | some _ => .error "type mismatch"

/-- Unmarshal an integer field (missing field leaves the zero value `0`). -/
def asInt : Option JValue → Except String Int
  | none => .ok 0
  | some (.jint n) => .ok n
  | some _ => .error "type mismatch"

/-- Unmarshal a boolean field (missing field leaves the zero value `false`). -/
def asBool : Option JValue → Except String Bool
  | none => .ok false
  | some (.jbool b) => .ok b
  | some _ => .error "type mismatch"

/-- Unmarshal a JSON array of strings, element by element (any non-string
element aborts the whole unmarshal, as `json.Unmarshal` does). -/
def decodeStrings : List JValue → Except String (List String)
  | [] => .ok []
  | .jstr s :: xs =>
      match decodeStrings xs with
      | .ok rest => .ok (s :: rest)
      | .error e => .error e
  | _ :: _ => .error "type mismatch"

/-- Unmarshal a `[]string` field (missing field leaves the zero value, the
empty slice; each element must be a string). -/
def asStringList : Option JValue → Except String (List String)
  | none => .ok []
  | some (.jarr xs) => decodeStrings xs
  | some _ => .error "type mismatch"

/-- Unmarshal one `Directory` from a JSON value. -/
def decodeDirectory (j : JValue) : Except String Directory :=
  match j with
  | .jobj fs => do
      let id ← asString (getField fs "id")
      let slug ← asString (getField fs "slug")
      let name ← asString (getField fs "name")
      let url ← asString (getField fs "url")
      let description ← asString (getField fs "description")
      let categories ← asStringList (getField fs "categories")
      let pricing ← asString (getField fs "pricing")
      let linkType ← asString (getField fs "link_type")
      let domainRating ← asInt (getField fs "domain_rating")
      let organicTraffic ← asInt (getField fs "organic_traffic")
      let organicKeywords ← asInt (getField fs "organic_keywords")
      let helpfulCount ← asInt (getField fs "helpful_count")
      let viewCount ← asInt (getField fs "view_count")
      let submissionURL ← asString (getField fs "submission_url")
      let isAffiliate ← asBool (getField fs "is_affiliate")
      let affiliateURL ← asString (getField fs "affiliate_url")
      let isActive ← asBool (getField fs "is_active")
      let createdAt ← asInt (getField fs "created_at")
      let updatedAt ← asInt (getField fs "updated_at")
      pure
        { id := id, slug := slug, name := name, url := url
        , description := description, categories := categories
        , pricing := pricing, linkType := linkType
        , domainRating := domainRating, organicTraffic := organicTraffic
        , organicKeywords := organicKeywords, helpfulCount := helpfulCount
        , viewCount := viewCount, submissionURL := submissionURL
        , isAffiliate := isAffiliate, affiliateURL := affiliateURL
        , isActive := isActive, createdAt := createdAt, updatedAt := updatedAt }
  | _ => .error "type mismatch"

/-- Unmarshal a JSON array of `Directory` objects, element by element (any
element error aborts the whole unmarshal). -/
def decodeDirList : List JValue → Except String (List Directory)
  | [] => .ok []
  | x :: xs =>
      match decodeDirectory x with
      | .ok d =>
          match decodeDirList xs with
          | .ok ds => .ok (d :: ds)
          | .error e => .error e
      | .error e => .error e

/-- Unmarshal a `[]models.Directory` collection. -/
def decodeDirectories (j : JValue) : Except String (List Directory) :=
  match j with
  | .jarr xs => decodeDirList xs
  | _ => .error "type mismatch"

/-- Unmarshal `CacheMetadata`. -/
def decodeMetadata (j : JValue) : Except String CacheMetadata :=
  match j with
  | .jobj fs => do
      let lastUpdated ← asInt (getField fs "last_updated")
      let version ← asString (getField fs "version")
      let count ← asInt (getField fs "count")
      pure { lastUpdated := lastUpdated, version := version, count := count }
  | _ => .error "type mismatch"

/-- The two on-disk artifacts of the cache (`none` = file absent or unreadable
at the byte level; `some j` = file exists and reads as JSON value `j`, which
may still fail structural unmarshalling). -/
structure DiskState where
  cacheFile : Option JValue
  metaFile : Option JValue

/-- Injected outcomes of the disk write operations used by `saveToCache`. -/
structure DiskEnv where
  mkdirOk : Bool
  writeCacheOk : Bool
  writeMetaOk : Bool

/-- `cache.loadFromCache`: read and unmarshal `directories.json`. -/
def loadFromCache (st : DiskState) : Except String (List Directory) :=
  match st.cacheFile with
  | none => .error "failed to read cache file"
  | some j =>
      match decodeDirectories j with
      | .ok dirs => .ok dirs
      | .error _ => .error "failed to unmarshal cache"

/-- `cache.loadMetadata`: read and unmarshal `metadata.json`. -/
def loadMetadata (st : DiskState) : Except String CacheMetadata :=
  match st.metaFile with
  | none => .error "failed to read metadata file"
  | some j =>
      match decodeMetadata j with
      | .ok meta => .ok meta
      | .error _ => .error "failed to unmarshal metadata"

/-- `cache.saveMetadata`: marshal and write `metadata.json`. -/
def saveMetadata (env : DiskEnv) (st : DiskState) (meta : CacheMetadata) :
    DiskState × Option String :=
  if env.writeMetaOk then
    ({ st with metaFile := some (encodeMetadata meta) }, none)
  else
    (st, some "failed to write metadata file")

/-- `cache.saveToCache`: ensure the cache directory, write `directories.json`,
then stamp and write `metadata.json` — in that order. -/
def saveToCache (env : DiskEnv) (st : DiskState) (now : Int)
    (directories : List Directory) : DiskState × Option String :=
  if !env.mkdirOk then
    (st, some "failed to create cache directory")
  else if !env.writeCacheOk then
    (st, some "failed to write cache file")
  else
    let st1 : DiskState := { st with cacheFile := some (encodeDirectories directories) }
    let meta : CacheMetadata :=
      { lastUpdated := now, version := "1.0", count := directories.length }
    match saveMetadata env st1 meta with
    | (st2, some e) => (st2, some ("failed to save metadata: " ++ e))
    | (st2, none) => (st2, none)

/-- `cache.isCacheValid`: metadata must load, the cache must not be expired
(`time.Since(meta.LastUpdated) > ttl` fails it), and `directories.json` must
exist. -/
def isCacheValid (st : DiskState) (ttl now : Int) : Bool :=
  match loadMetadata st with
  | .error _ => false
  | .ok meta =>
      if now - meta.lastUpdated > ttl then false
      else
        match st.cacheFile with
        | none => false
        | some _ => true

/-- `cache.GetDirectories`: serve from a valid cache, else fetch from the API
(`api` is this invocation's remote result), falling back to the stale cache
when the fetch fails; a save failure is logged but does not fail the call. -/
def GetDirectories (env : DiskEnv) (st : DiskState) (ttl now : Int)
    (forceRefresh : Bool) (api : Except String (List Directory)) :
    Except String (List Directory) × DiskState :=
  let fetch : Except String (List Directory) × DiskState :=
    match api with
    | .ok directories =>
        let save := saveToCache env st now directories
        (.ok directories, save.1)
    | .error e =>
        match loadFromCache st with
        | .ok cachedDirs => (.ok cachedDirs, st)
        | .error _ => (.error ("failed to fetch directories: " ++ e), st)
  if !forceRefresh && isCacheValid st ttl now then
    match loadFromCache st with
    | .ok directories => (.ok directories, st)
    | .error _ => fetch
  else fetch

/-- `cache.Sync`: always contact the remote; both a fetch failure and a save
failure propagate (no stale fallback). -/
def Sync (env : DiskEnv) (st : DiskState) (now : Int)
    (api : Except String (List Directory)) : Option String × DiskState :=
  match api with
  | .error e => (some ("failed to fetch directories: " ++ e), st)
  | .ok directories =>
      match saveToCache env st now directories with
      | (st2, some e) => (some ("failed to save to cache: " ++ e), st2)
      | (st2, none) => (none, st2)

/-- ASCII lower-casing, character by character (the locale-free behavior the
source relies on via `strings.ToLower`; defined structurally so that it
evaluates by kernel reduction). -/
def strToLower (s : String) : String := ⟨s.data.map Char.toLower⟩

/-- `strings.EqualFold` (case-insensitive string equality via lower-casing,
matching the locale-free source usage). -/
def eqFold (a b : String) : Bool := strToLower a == strToLower b

/-- `needle` is a prefix of `hay` (character-wise). -/
def prefixOfChars : List Char → List Char → Bool
  | [], _ => true
  | _ :: _, [] => false
  | a :: as, b :: bs => a == b && prefixOfChars as bs

/-- `needle` occurs contiguously somewhere in `hay`. -/
def infixOfChars (needle : List Char) : List Char → Bool
  | [] => prefixOfChars needle []
  | hay@(_ :: rest) => prefixOfChars needle hay || infixOfChars needle rest

/-- `strings.Contains s sub`: `sub` is a substring of `s`. -/
def strContains (s sub : String) : Bool := infixOfChars sub.toList s.toList

/-- The per-record pass condition of the `FilterDirectories` loop: a record is
kept iff no `continue` guard fires (active flag, query, categories, pricing,
link type, and the two domain-rating bounds, AND-ed). -/
def matchesFilter (dir : Directory) (options : FilterOptions) : Bool :=
  dir.isActive
  && (options.query == ""
      || (strContains (strToLower dir.name) (strToLower options.query)
          || strContains (strToLower dir.description) (strToLower options.query)))
  && (!(options.categories.length > 0)
      || options.categories.any fun cat =>
           dir.categories.any fun dirCat => eqFold cat dirCat)
  && (!(options.pricing.length > 0)
      || options.pricing.any fun price => eqFold price dir.pricing)
  && (!(options.linkType.length > 0)
      || options.linkType.any fun lt => eqFold lt dir.linkType)
  && (!(options.drMin > 0 && dir.domainRating > 0
        && dir.domainRating < options.drMin))
  && (!(options.drMax > 0 && dir.domainRating > 0
        && dir.domainRating > options.drMax))

/-- `cache.sortDirectories`: the source's body is empty (a no-op that relies on
the API's ordering), so the value-level model returns its input unchanged. -/
def sortDirectories (directories : List Directory) (sortBy : String) :
    List Directory :=
  directories

/-- Go slice expression `l[lo:hi]`: defined when `0 ≤ lo ≤ hi ≤ len`, a
bounds panic (`none`) otherwise. -/
def goSlice (l : List Directory) (lo hi : Int) : Option (List Directory) :=
  if 0 ≤ lo ∧ lo ≤ hi ∧ hi ≤ (l.length : Int) then
    some ((l.drop lo.toNat).take (hi - lo).toNat)
  else none

/-- Two's-complement wrap of an integer into the signed 64-bit range
(Go `int` addition overflows by wrapping; used for the pagination's
`end := start + limit`). -/
def goIntWrap (n : Int) : Int :=
  (n + 9223372036854775808) % 18446744073709551616 - 9223372036854775808

/-- The pagination tail of `FilterDirectories`: with `Limit > 0`, compute
`end := start + limit` with Go's wrapping int addition, return `[]` when
`Offset` is at or past the end, otherwise slice `filtered[start:end]` with
`end` clipped to the length. -/
def paginate (filtered : List Directory) (limit offset : Int) :
    Option (List Directory) :=
  if limit > 0 then
    let start := offset
    let stop := goIntWrap (start + limit)
    if start ≥ (filtered.length : Int) then some []
    else
      goSlice filtered start
        (if stop > (filtered.length : Int) then (filtered.length : Int) else stop)
  else some filtered

/-- `cache.FilterDirectories`: nil options returns the input unchanged;
otherwise filter, sort, paginate (a `none` result models a slice-bounds
panic in the pagination step). -/
def FilterDirectories (directories : List Directory)
    (options : Option FilterOptions) : Option (List Directory) :=
  match options with
  | none => some directories
  | some opts =>
      let filtered := directories.filter fun dir => matchesFilter dir opts
      let sorted := sortDirectories filtered opts.sortBy
      paginate sorted opts.limit opts.offset

/-! ### Concrete fixtures used by witnesses -/

/-- All disk writes succeed. -/
def envAll : DiskEnv := { mkdirOk := true, writeCacheOk := true, writeMetaOk := true }

/-- Sample active record. -/
def dirAlpha : Directory :=
  { id := "1", slug := "alpha", name := "Alpha", url := "https://a.example"
  , description := "first entry", categories := ["AI Tools"], pricing := "Free"
  , linkType := "dofollow", domainRating := 60, organicTraffic := 100
  , organicKeywords := 5, helpfulCount := 3, viewCount := 7
  , submissionURL := "", isAffiliate := false, affiliateURL := ""
  , isActive := true, createdAt := 50, updatedAt := 60 }

/-- Sample active record with a different name, category and pricing. -/
def dirBravo : Directory :=
  { dirAlpha with
    id := "2"
    slug := "bravo"
    name := "Bravo"
    categories := ["SaaS"]
    pricing := "paid"
    domainRating := 20
    createdAt := 70 }

/-- Sample inactive record. -/
def dirInactive : Directory :=
  { dirAlpha with
    id := "3"
    slug := "inactive"
    name := "Closed"
    isActive := false }

/-- Sample active record with a negative (hence non-zero) domain rating. -/
def dirNegDR : Directory :=
  { dirAlpha with
    id := "4"
    slug := "neg"
    name := "Negative"
    domainRating := -3 }

/-- Sample active record with an unknown (zero) domain rating. -/
def dirZeroDR : Directory :=
  { dirAlpha with id := "5", slug := "zero", name := "Zero", domainRating := 0 }

/-- Disk state holding exactly `[dirAlpha]` in the collection artifact and
fresh-enough metadata stamped at instant 10. -/
def stAlpha : DiskState :=
  { cacheFile := some (encodeDirectories [dirAlpha])
  , metaFile := some (encodeMetadata { lastUpdated := 10, version := "1.0", count := 1 }) }

/-- Disk state with metadata but no collection artifact. -/
def stMetaOnly : DiskState :=
  { cacheFile := none
  , metaFile := some (encodeMetadata { lastUpdated := 10, version := "1.0", count := 1 }) }


/-- The empty filter specification (no constraints). -/
def optsEmpty : FilterOptions :=
  { query := "", categories := [], pricing := [], linkType := []
  , drMin := 0, drMax := 0, sortBy := "", limit := 0, offset := 0 }

/-- Specification requesting categories {"AI Tools","SaaS"} and pricing {"free"}. -/
def optsCat : FilterOptions :=
  { optsEmpty with
    categories := ["AI Tools", "SaaS"]
    pricing := ["free"] }

/-- Specification with a minimum score bound of 50. -/
def optsMin50 : FilterOptions :=
  { optsEmpty with drMin := 50 }

/-- Specification asking for alphabetical sorting. -/
def optsAlpha : FilterOptions :=
  { optsEmpty with sortBy := "alpha" }

/-- Specification paging with limit 10 and offset 5. -/
def optsPage5 : FilterOptions :=
  { optsEmpty with
    limit := 10
    offset := 5 }

/-- Specification paging with limit 10 and offset 3. -/
def optsPage3 : FilterOptions :=
  { optsEmpty with
    limit := 10
    offset := 3 }

/-- Specification with a negative pagination offset. -/
def optsNegOffset : FilterOptions :=
  { optsEmpty with
    limit := 1
    offset := -1 }

/-- Specification whose `offset + limit` overflows a signed 64-bit int. -/
def optsWrap : FilterOptions :=
  { optsEmpty with
    limit := 9223372036854775807
    offset := 1 }

/-- Fifth sample active record. -/
def dirCharlie : Directory :=
  { dirAlpha with
    id := "6"
    slug := "charlie"
    name := "Charlie" }

/-! ### Marshalling round-trip lemmas -/

theorem decodeStrings_encode (l : List String) :
    decodeStrings (l.map .jstr) = .ok l := by
  induction l with
  | nil => rfl
  | cons a as ih => simp [decodeStrings, ih]

theorem decode_encode_directory (d : Directory) :
    decodeDirectory (encodeDirectory d) = .ok d := by
  simp [decodeDirectory, encodeDirectory, getField, asString, asInt, asBool,
    asStringList, decodeStrings_encode]
  rfl

theorem decodeDirList_encode (l : List Directory) :
    decodeDirList (l.map encodeDirectory) = .ok l := by
  induction l with
  | nil => rfl
  | cons d ds ih => simp [decodeDirList, decode_encode_directory, ih]

theorem decode_encode_directories (l : List Directory) :
    decodeDirectories (encodeDirectories l) = .ok l := by
  simp [decodeDirectories, encodeDirectories, decodeDirList_encode]

/-! ### C8, C9, C4, C2 — persisted store and fetch orchestrator -/

/-- C8: saving a collection to the cache (`saveToCache`) and loading it back
(`loadFromCache`) succeeds and reproduces the exact record set, field for
field and in the same order, whenever the save reported success. -/
theorem save_load_roundTrip (env : DiskEnv) (st : DiskState) (now : Int)
    (dirs : List Directory) (h : (saveToCache env st now dirs).2 = none) :
    loadFromCache (saveToCache env st now dirs).1 = .ok dirs := by
  by_cases hm : env.mkdirOk
  · by_cases hw : env.writeCacheOk
    · by_cases hmw : env.writeMetaOk
      · simp [saveToCache, saveMetadata, hm, hw, hmw, loadFromCache,
          decode_encode_directories]
      · simp [saveToCache, saveMetadata, hm, hw, hmw] at h
    · simp [saveToCache, hm, hw] at h
  · simp [saveToCache, hm] at h

/-- C8 witness: a concrete save of `[dirAlpha, dirBravo]` loads back exactly. -/
theorem save_load_roundTrip_witness :
    (saveToCache envAll stMetaOnly 42 [dirAlpha, dirBravo]).2 = none
    ∧ loadFromCache (saveToCache envAll stMetaOnly 42 [dirAlpha, dirBravo]).1
        = .ok [dirAlpha, dirBravo] :=
  ⟨rfl, save_load_roundTrip envAll stMetaOnly 42 [dirAlpha, dirBravo] rfl⟩

/-- C9: a metadata file without a collection artifact is no usable cache —
whenever `directories.json` is absent, `isCacheValid` is false regardless of
the metadata; and `saveToCache` writes the collection first, then metadata:
if the metadata artifact changed then the collection artifact now holds the
saved records, and if the collection write failed nothing was written at all. -/
theorem metadata_requires_collection (env : DiskEnv) (st : DiskState)
    (ttl now clock : Int) (dirs : List Directory) :
    (st.cacheFile = none → isCacheValid st ttl now = false)
    ∧ ((saveToCache env st clock dirs).1.metaFile ≠ st.metaFile →
        (saveToCache env st clock dirs).1.cacheFile = some (encodeDirectories dirs))
    ∧ (env.writeCacheOk = false → (saveToCache env st clock dirs).1 = st) := by
  refine ⟨?_, ?_, ?_⟩
  · intro hc
    unfold isCacheValid
    cases hlm : loadMetadata st with
    | error e => rfl
    | ok meta =>
        by_cases hexp : now - meta.lastUpdated > ttl
        · simp [hexp]
        · simp [hexp, hc]
  · intro hmeta
    by_cases hm : env.mkdirOk
    · by_cases hw : env.writeCacheOk
      · by_cases hmw : env.writeMetaOk
        · simp [saveToCache, saveMetadata, hm, hw, hmw]
        · simp [saveToCache, saveMetadata, hm, hw, hmw]
      · simp [saveToCache, hm, hw] at hmeta
    · simp [saveToCache, hm] at hmeta
  · intro hw
    by_cases hm : env.mkdirOk <;> simp [saveToCache, hm, hw]

/-- C9 witness: with metadata present but the collection artifact absent, the
cache is reported invalid even though the metadata is brand new. -/
theorem metadata_requires_collection_witness :
    stMetaOnly.cacheFile = none ∧ isCacheValid stMetaOnly 24 10 = false :=
  ⟨rfl, (metadata_requires_collection envAll stMetaOnly 24 10 0 []).1 rfl⟩

/-- C4: given loadable metadata and a present collection artifact, the
freshness check is true exactly when the snapshot's age `now - last_updated`
does not exceed the configured TTL (age = TTL is still fresh; any strictly
larger age is not). -/
theorem isCacheValid_freshness_boundary (st : DiskState) (meta : CacheMetadata)
    (ttl now : Int) (hm : loadMetadata st = .ok meta) (hf : st.cacheFile ≠ none) :
    isCacheValid st ttl now = true ↔ now - meta.lastUpdated ≤ ttl := by
  rcases hc : st.cacheFile with _ | j
  · exact absurd hc hf
  · unfold isCacheValid
    rw [hm, hc]
    by_cases hexp : now - meta.lastUpdated > ttl
    · simp [hexp]
      omega
    · simp [hexp]
      omega

/-- C4 witness: with metadata stamped at 10 and TTL 24, the cache is fresh at
age exactly 24 (now = 34) and stale at age 25 (now = 35). -/
theorem isCacheValid_freshness_boundary_witness :
    isCacheValid stAlpha 24 34 = true ∧ isCacheValid stAlpha 24 35 ≠ true :=
  ⟨(isCacheValid_freshness_boundary stAlpha
      { lastUpdated := 10, version := "1.0", count := 1 } 24 34 rfl
      (by simp [stAlpha])).mpr (by decide)
  , fun h =>
      absurd ((isCacheValid_freshness_boundary stAlpha
        { lastUpdated := 10, version := "1.0", count := 1 } 24 35 rfl
        (by simp [stAlpha])).mp h) (by decide)⟩

/-- C2: with a loadable on-disk snapshot and a remote that fails, a
non-forced `GetDirectories` returns the snapshot without error (stale
fallback), while `Sync` against the same failing remote returns an error. -/
theorem getDirectories_staleFallback_sync_errors (env : DiskEnv)
    (st : DiskState) (ttl now : Int) (e : String) (dirs : List Directory)
    (h : loadFromCache st = .ok dirs) :
    (GetDirectories env st ttl now false (.error e)).1 = .ok dirs
    ∧ (Sync env st now (.error e)).1 ≠ none := by
  constructor
  · by_cases hv : isCacheValid st ttl now
    · simp [GetDirectories, hv, h]
    · simp [GetDirectories, hv, h]
  · simp [Sync]

/-- C2 witness: the concrete one-record snapshot survives a failing remote in
`GetDirectories` and the same remote makes `Sync` fail. -/
theorem getDirectories_staleFallback_sync_errors_witness :
    loadFromCache stAlpha = .ok [dirAlpha]
    ∧ (GetDirectories envAll stAlpha 24 100 false (.error "boom")).1 = .ok [dirAlpha]
    ∧ (Sync envAll stAlpha 100 (.error "boom")).1 ≠ none :=
  ⟨by simp [loadFromCache, stAlpha, decode_encode_directories]
  , (getDirectories_staleFallback_sync_errors envAll stAlpha 24 100 "boom" [dirAlpha]
      (by simp [loadFromCache, stAlpha, decode_encode_directories])).1
  , (getDirectories_staleFallback_sync_errors envAll stAlpha 24 100 "boom" [dirAlpha]
      (by simp [loadFromCache, stAlpha, decode_encode_directories])).2⟩

/-! ### Filter-engine helper lemmas -/

theorem orGuard_eq_true_iff (c r : Bool) (p : Prop) (hcp : c = true ↔ p) :
    (c || r) = true ↔ (¬ p → r = true) := by
  cases c with
  | false =>
      have hnp : ¬ p := fun hp => by simpa using hcp.mpr hp
      simp [hnp]
  | true =>
      have hp : p := hcp.mp rfl
      simp [hp]

theorem textGuard_iff (d : Directory) (o : FilterOptions) :
    (o.query == ""
      || (strContains (strToLower d.name) (strToLower o.query)
          || strContains (strToLower d.description) (strToLower o.query))) = true
    ↔ (o.query ≠ "" →
        strContains (strToLower d.name) (strToLower o.query) = true
        ∨ strContains (strToLower d.description) (strToLower o.query) = true) :=
  (orGuard_eq_true_iff _ _ _ beq_iff_eq).trans
    (imp_congr_right fun _ => by simp)

theorem catGuard_iff (d : Directory) (o : FilterOptions) :
    (!(o.categories.length > 0)
      || o.categories.any fun cat =>
           d.categories.any fun dirCat => eqFold cat dirCat) = true
    ↔ (o.categories ≠ [] →
        ∃ c ∈ o.categories, ∃ dc ∈ d.categories, eqFold c dc = true) :=
  (orGuard_eq_true_iff _ _ _ (by simp [List.length_eq_zero])).trans
    (imp_congr_right fun _ => by simp [List.any_eq_true])

theorem priceGuard_iff (d : Directory) (o : FilterOptions) :
    (!(o.pricing.length > 0)
      || o.pricing.any fun price => eqFold price d.pricing) = true
    ↔ (o.pricing ≠ [] → ∃ p ∈ o.pricing, eqFold p d.pricing = true) :=
  (orGuard_eq_true_iff _ _ _ (by simp [List.length_eq_zero])).trans
    (imp_congr_right fun _ => by simp [List.any_eq_true])

theorem linkGuard_iff (d : Directory) (o : FilterOptions) :
    (!(o.linkType.length > 0)
      || o.linkType.any fun lt => eqFold lt d.linkType) = true
    ↔ (o.linkType ≠ [] → ∃ lt ∈ o.linkType, eqFold lt d.linkType = true) :=
  (orGuard_eq_true_iff _ _ _ (by simp [List.length_eq_zero])).trans
    (imp_congr_right fun _ => by simp [List.any_eq_true])

theorem drMinGuard_iff (d : Directory) (o : FilterOptions) :
    (!(o.drMin > 0 && d.domainRating > 0 && d.domainRating < o.drMin)) = true
    ↔ (0 < o.drMin → 0 < d.domainRating → o.drMin ≤ d.domainRating) := by
  simp only [Bool.not_eq_true', Bool.and_eq_false_iff, decide_eq_false_iff_not,
    not_lt, decide_eq_true_eq]
  omega

theorem drMaxGuard_iff (d : Directory) (o : FilterOptions) :
    (!(o.drMax > 0 && d.domainRating > 0 && d.domainRating > o.drMax)) = true
    ↔ (0 < o.drMax → 0 < d.domainRating → d.domainRating ≤ o.drMax) := by
  simp only [Bool.not_eq_true', Bool.and_eq_false_iff, decide_eq_false_iff_not,
    not_lt, decide_eq_true_eq]
  omega

theorem matchesFilter_eq_true_iff (d : Directory) (o : FilterOptions) :
    matchesFilter d o = true ↔
      (d.isActive = true
        ∧ (o.query ≠ "" →
            strContains (strToLower d.name) (strToLower o.query) = true
            ∨ strContains (strToLower d.description) (strToLower o.query) = true)
        ∧ (o.categories ≠ [] →
            ∃ c ∈ o.categories, ∃ dc ∈ d.categories, eqFold c dc = true)
        ∧ (o.pricing ≠ [] → ∃ p ∈ o.pricing, eqFold p d.pricing = true)
        ∧ (o.linkType ≠ [] → ∃ lt ∈ o.linkType, eqFold lt d.linkType = true)
        ∧ (0 < o.drMin → 0 < d.domainRating → o.drMin ≤ d.domainRating)
        ∧ (0 < o.drMax → 0 < d.domainRating → d.domainRating ≤ o.drMax)) := by
  unfold matchesFilter
  simp only [Bool.and_eq_true]
  rw [textGuard_iff, catGuard_iff, priceGuard_iff, linkGuard_iff,
    drMinGuard_iff, drMaxGuard_iff]
  tauto

theorem goSlice_mem (l : List Directory) (lo hi : Int) (out : List Directory)
    (h : goSlice l lo hi = some out) : ∀ x ∈ out, x ∈ l := by
  unfold goSlice at h
  split at h
  · cases h
    intro x hx
    exact List.drop_subset _ _ (List.take_subset _ _ hx)
  · cases h

theorem paginate_mem (l : List Directory) (limit offset : Int)
    (out : List Directory) (h : paginate l limit offset = some out) :
    ∀ x ∈ out, x ∈ l := by
  unfold paginate at h
  split at h
  · dsimp only at h
    split at h
    · cases h
      intro x hx
      cases hx
    · exact goSlice_mem _ _ _ _ h
  · cases h
    intro x hx
    exact hx

theorem filterDirectories_noLimit (dirs : List Directory) (opts : FilterOptions)
    (hlim : opts.limit ≤ 0) :
    FilterDirectories dirs (some opts)
      = some (dirs.filter fun dir => matchesFilter dir opts) := by
  unfold FilterDirectories sortDirectories paginate
  have hr : ¬ opts.limit > 0 := by omega
  simp [hr]

/-- C3: every record appearing in the output of `FilterDirectories` (for any
input collection and any filter specification, the empty one included) has its
active flag set; inactive records never appear in a filtered result. -/
theorem filterDirectories_active_invariant (dirs : List Directory)
    (opts : FilterOptions) (out : List Directory) (d : Directory)
    (h : FilterDirectories dirs (some opts) = some out) (hd : d ∈ out) :
    d.isActive = true := by
  unfold FilterDirectories at h
  have hmem := paginate_mem _ _ _ _ h d hd
  have hflt : matchesFilter d opts = true :=
    (List.mem_filter.mp hmem).2
  exact ((matchesFilter_eq_true_iff d opts).mp hflt).1

/-- C3 witness: the empty specification still drops the inactive record. -/
theorem filterDirectories_active_invariant_witness :
    FilterDirectories [dirAlpha, dirInactive] (some optsEmpty) = some [dirAlpha]
    ∧ dirAlpha.isActive = true :=
  ⟨by decide
  , filterDirectories_active_invariant [dirAlpha, dirInactive] optsEmpty
      [dirAlpha] dirAlpha (by decide) (by decide)⟩

/-- C5: without pagination, a record is in the `FilterDirectories` output
exactly when it is in the input and satisfies the conjunction of all
configured field predicates — active flag, text query against name or
description, OR-within-field membership for categories, pricing and link
type, and the two score bounds for positive-score records — an absent
field (empty set, zero bound) imposing no constraint. -/
theorem filterDirectories_conjunction (dirs : List Directory)
    (opts : FilterOptions) (hlim : opts.limit ≤ 0) (d : Directory) :
    (∃ out, FilterDirectories dirs (some opts) = some out ∧ d ∈ out)
    ↔ (d ∈ dirs ∧ d.isActive = true
        ∧ (opts.query ≠ "" →
            strContains (strToLower d.name) (strToLower opts.query) = true
            ∨ strContains (strToLower d.description) (strToLower opts.query) = true)
        ∧ (opts.categories ≠ [] →
            ∃ c ∈ opts.categories, ∃ dc ∈ d.categories, eqFold c dc = true)
        ∧ (opts.pricing ≠ [] → ∃ p ∈ opts.pricing, eqFold p d.pricing = true)
        ∧ (opts.linkType ≠ [] → ∃ lt ∈ opts.linkType, eqFold lt d.linkType = true)
        ∧ (0 < opts.drMin → 0 < d.domainRating → opts.drMin ≤ d.domainRating)
        ∧ (0 < opts.drMax → 0 < d.domainRating → d.domainRating ≤ opts.drMax)) := by
  rw [filterDirectories_noLimit dirs opts hlim]
  constructor
  · rintro ⟨out, hout, hd⟩
    injection hout with hout
    subst hout
    have hmem := List.mem_filter.mp hd
    exact ⟨hmem.1, (matchesFilter_eq_true_iff d opts).mp hmem.2⟩
  · rintro ⟨hmem, hrest⟩
    exact ⟨_, rfl,
      List.mem_filter.mpr ⟨hmem, (matchesFilter_eq_true_iff d opts).mpr hrest⟩⟩

/-- C5 witness: with categories {"AI Tools","SaaS"} and pricing {"free"},
`dirAlpha` (category "AI Tools", pricing "Free") is returned. -/
theorem filterDirectories_conjunction_witness :
    optsCat.limit ≤ 0
    ∧ (∃ out, FilterDirectories [dirAlpha, dirBravo, dirInactive] (some optsCat)
          = some out ∧ dirAlpha ∈ out) :=
  ⟨by decide
  , (filterDirectories_conjunction [dirAlpha, dirBravo, dirInactive] optsCat
      (by decide) dirAlpha).mpr (by decide)⟩

theorem goIntWrap_eq_self (n : Int) (h1 : -9223372036854775808 ≤ n)
    (h2 : n ≤ 9223372036854775807) : goIntWrap n = n := by
  unfold goIntWrap
  omega

/-- C6 (amended): pagination in `FilterDirectories` is the `paginate` stage
applied to the filtered (and "sorted") sequence, and for a non-negative
offset that stage returns the full sequence when the limit is non-positive
and the empty sequence when the offset is at or past the end; when the
offset is before the end it returns exactly the slice from the offset of at
most `limit` elements provided `offset + limit` does not overflow a signed
64-bit int (an overflowing `start + limit` wraps negative, defeats the
clipping guard, and the slicing panics instead). -/
theorem filterDirectories_pagination (dirs : List Directory)
    (opts : FilterOptions) (l : List Directory) (hoff : 0 ≤ opts.offset) :
    FilterDirectories dirs (some opts)
      = paginate (sortDirectories (dirs.filter fun dir => matchesFilter dir opts)
          opts.sortBy) opts.limit opts.offset
    ∧ (opts.limit ≤ 0 → paginate l opts.limit opts.offset = some l)
    ∧ (0 < opts.limit → (l.length : Int) ≤ opts.offset →
        paginate l opts.limit opts.offset = some [])
    ∧ (0 < opts.limit → opts.offset < (l.length : Int) →
        opts.offset + opts.limit ≤ 9223372036854775807 →
        paginate l opts.limit opts.offset
          = some ((l.drop opts.offset.toNat).take opts.limit.toNat)) := by
  refine ⟨rfl, ?_, ?_, ?_⟩
  · intro hlim
    unfold paginate
    have hr : ¬ opts.limit > 0 := by omega
    simp [hr]
  · intro hlim hpast
    unfold paginate
    rw [if_pos hlim]
    dsimp only
    rw [if_pos (by omega)]
  · intro hlim hlt hnov
    unfold paginate
    rw [if_pos hlim]
    dsimp only
    rw [goIntWrap_eq_self (opts.offset + opts.limit) (by omega) (by omega)]
    rw [if_neg (by omega)]
    unfold goSlice
    by_cases hov : opts.offset + opts.limit > (l.length : Int)
    · rw [if_pos hov]
      rw [if_pos (by constructor <;> [omega; constructor <;> omega])]
      congr 1
      have hlen : (l.drop opts.offset.toNat).length = l.length - opts.offset.toNat :=
        List.length_drop _ _
      rw [List.take_of_length_le (by omega), List.take_of_length_le (by omega)]
    · rw [if_neg hov]
      rw [if_pos (by constructor <;> [omega; constructor <;> omega])]
      congr 1
      have harg : (opts.offset + opts.limit - opts.offset).toNat
          = opts.limit.toNat := by omega
      rw [harg]

/-- C6 witness: for five surviving records, offset 5 with limit 10 yields the
empty sequence, and offset 3 with limit 10 yields exactly the last two. -/
theorem filterDirectories_pagination_witness :
    paginate [dirAlpha, dirBravo, dirNegDR, dirZeroDR, dirCharlie]
        optsPage5.limit optsPage5.offset = some []
    ∧ paginate [dirAlpha, dirBravo, dirNegDR, dirZeroDR, dirCharlie]
        optsPage3.limit optsPage3.offset = some [dirZeroDR, dirCharlie] :=
  ⟨(filterDirectories_pagination [] optsPage5
      [dirAlpha, dirBravo, dirNegDR, dirZeroDR, dirCharlie]
      (by decide)).2.2.1 (by decide) (by decide)
  , ((filterDirectories_pagination [] optsPage3
      [dirAlpha, dirBravo, dirNegDR, dirZeroDR, dirCharlie]
      (by decide)).2.2.2 (by decide) (by decide) (by decide)).trans (by decide)⟩

/-- C6 counterexample to the unamended claim: with offset 1 (non-negative and
before the end of the 2-record list) and limit 2^63 − 1, the claim's slice
conjunct predicts the last record, but Go's `end := start + limit` wraps
negative and the slicing panics (`none`) instead. -/
theorem filterDirectories_pagination_counterexample :
    (0 : Int) < optsWrap.limit
    ∧ (0 : Int) ≤ optsWrap.offset
    ∧ optsWrap.offset < (([dirAlpha, dirBravo] : List Directory).length : Int)
    ∧ paginate [dirAlpha, dirBravo] optsWrap.limit optsWrap.offset
        ≠ some [dirBravo]
    ∧ paginate [dirAlpha, dirBravo] optsWrap.limit optsWrap.offset = none := by
  decide

theorem paginate_total (l : List Directory) (limit offset : Int)
    (h : 0 ≤ offset) (hnov : offset + limit ≤ 9223372036854775807) :
    (paginate l limit offset).isSome = true := by
  unfold paginate
  by_cases hl : limit > 0
  · rw [if_pos hl]
    dsimp only
    rw [goIntWrap_eq_self (offset + limit) (by omega) (by omega)]
    by_cases hs : offset ≥ (l.length : Int)
    · rw [if_pos hs]
      rfl
    · rw [if_neg hs]
      unfold goSlice
      by_cases hov : offset + limit > (l.length : Int)
      · rw [if_pos hov, if_pos (by constructor <;> [omega; constructor <;> omega])]
        rfl
      · rw [if_neg hov, if_pos (by constructor <;> [omega; constructor <;> omega])]
        rfl
  · rw [if_neg hl]
    rfl

/-- C10 (amended): the pagination step of `FilterDirectories` never slices
out of bounds (the result is always defined) whenever the offset is
non-negative and `offset + limit` does not overflow a signed 64-bit int; both
preconditions are necessary and neither is stated by the spec — a negative
offset violates the slice bounds, and an overflowing `start + limit` wraps
negative, defeats both guards, and panics too (both modelled as `none`). -/
theorem pagination_total_nonneg_offset :
    (∀ (dirs : List Directory) (opts : FilterOptions), 0 ≤ opts.offset →
        opts.offset + opts.limit ≤ 9223372036854775807 →
        (FilterDirectories dirs (some opts)).isSome = true)
    ∧ FilterDirectories [dirAlpha] (some optsNegOffset) = none
    ∧ FilterDirectories [dirAlpha, dirBravo] (some optsWrap) = none :=
  ⟨fun dirs opts hoff hnov => paginate_total _ opts.limit opts.offset hoff hnov
  , by decide, by decide⟩

/-- C10 counterexample to the unamended claim: a specification with the
non-negative offset 1 whose `offset + limit` overflows still makes the
pagination of a 2-record collection slice out of bounds (Go panics; the model
yields `none`), so `offset ≥ 0` alone does not make the step total. -/
theorem pagination_offset_only_counterexample :
    (0 : Int) ≤ optsWrap.offset
    ∧ (FilterDirectories [dirAlpha, dirBravo] (some optsWrap)).isSome = false := by
  decide

/-- C10 witness: a concrete in-bounds instantiation of the totality half. -/
theorem pagination_total_nonneg_offset_witness :
    (0 : Int) ≤ optsPage3.offset
    ∧ optsPage3.offset + optsPage3.limit ≤ 9223372036854775807
    ∧ (FilterDirectories [dirAlpha] (some optsPage3)).isSome = true :=
  ⟨by decide, by decide
  , pagination_total_nonneg_offset.1 [dirAlpha] optsPage3 (by decide) (by decide)⟩

/-- C7 counterexample: the claim's "a record with a known nonzero score must
satisfy score ≥ min" fails on the code — a record with the nonzero (negative)
score −3 survives a drMin = 50 filter because the code exempts every
non-positive score, not only zero. -/
theorem drFilter_nonzero_claim_counterexample :
    dirNegDR.domainRating ≠ 0
    ∧ dirNegDR.domainRating < optsMin50.drMin
    ∧ 0 < optsMin50.drMin
    ∧ FilterDirectories [dirNegDR] (some optsMin50) = some [dirNegDR] := by
  decide

/-- C7 (amended): a record whose quality score is not positive (zero meaning
unknown, and likewise any negative value) is exempt from both score bounds —
they do not affect whether it passes the filter — while a record with a
positive score that passes the filter satisfies score ≥ min and score ≤ max
for each configured bound. -/
theorem drFilter_unknown_exemption (d : Directory) (o : FilterOptions) :
    (d.domainRating ≤ 0 →
        matchesFilter d o = matchesFilter d { o with drMin := 0, drMax := 0 })
    ∧ (0 < d.domainRating → matchesFilter d o = true →
        (0 < o.drMin → o.drMin ≤ d.domainRating)
        ∧ (0 < o.drMax → d.domainRating ≤ o.drMax)) := by
  constructor
  · intro hdr
    have hfalse : decide (d.domainRating > 0) = false := by
      simp only [decide_eq_false_iff_not, not_lt]
      omega
    simp [matchesFilter, hfalse]
  · intro hpos hmatch
    have hm := (matchesFilter_eq_true_iff d o).mp hmatch
    exact ⟨fun hmin => hm.2.2.2.2.2.1 hmin hpos
      , fun hmax => hm.2.2.2.2.2.2 hmax hpos⟩

/-- C7 witness: a score-0 record passes a drMin = 50 filter unaffected. -/
theorem drFilter_unknown_exemption_witness :
    dirZeroDR.domainRating ≤ 0
    ∧ matchesFilter dirZeroDR optsMin50
        = matchesFilter dirZeroDR { optsMin50 with drMin := 0, drMax := 0 }
    ∧ matchesFilter dirZeroDR optsMin50 = true :=
  ⟨by decide
  , (drFilter_unknown_exemption dirZeroDR optsMin50).1 (by decide)
  , by decide⟩

/-- C1 (code bug): `sortDirectories` has an empty body, so it is a silent
no-op for every sort key — sorting the out-of-order collection
`[dirBravo, dirAlpha]` by "alpha" leaves the names in the order
["Bravo", "Alpha"] instead of ascending order, and the full
`FilterDirectories` pipeline propagates that unsorted order. -/
theorem sortStage_noop_codebug :
    (∀ (l : List Directory) (key : String), sortDirectories l key = l)
    ∧ (sortDirectories [dirBravo, dirAlpha] "alpha").map Directory.name
        = ["Bravo", "Alpha"]
    ∧ FilterDirectories [dirBravo, dirAlpha] (some optsAlpha)
        = some [dirBravo, dirAlpha] :=
  ⟨fun l key => rfl, by decide, by decide⟩
